import Mathlib

/-!
Verification of the FusionEngine control-message codec
(`python/fusion_engine_client/messages/control.py`).

The three payload classes `CommandResponseMessage`, `MessageRequest` and
`ResetRequest` are embedded as Lean structures; their `pack`/`unpack`
methods, which are thin wrappers over Python `struct.pack_into` /
`struct.unpack_from` with the format strings `'<IB3x'`, `'<H2x'` and
`'<I'`, are embedded as executable functions over `List Nat` byte buffers.

Conventions of the embedding:
  * a byte buffer is a `List Nat` (each entry a byte value);
  * `struct.pack_into` is modelled by `packInto`: it range-checks the
    window `[offset, offset + size)` against the buffer length (a failed
    check is Python's `struct.error`) and overwrites exactly that window;
  * `struct.unpack_from` is modelled by `readBytes` with the same bounds
    check; field values out of their width's range make the pack fail,
    as `struct.pack_into` raises for out-of-range arguments;
  * `pack self buffer offset` returns `none` when the Python call would
    raise, and otherwise `some (buf, n)` where `buf` is the buffer
    contents after the call and `n` the value returned when
    `return_buffer=False`;
  * `unpack self buffer offset` returns `(self', result)` where `self'`
    is the instance's field state after the call and `result = none`
    exactly when the Python call raises (in the source, the fallible
    `struct.unpack_from` call precedes every field assignment, so on an
    exception the fields are still the prior ones);
  * returned byte counts are `Int`, since the source computes them by
    Python integer subtraction, which can go negative.
-/

namespace FusionEngine

/-- Little-endian encoding of `v` into `width` bytes, as Python
`struct` does for the `<` byte order. -/
def leBytes : Nat → Nat → List Nat
  | 0, _ => []
  | w + 1, v => v % 256 :: leBytes w (v / 256)

/-- Little-endian decoding of a byte list, as Python `struct` does for
the `<` byte order. -/
def leDecode : List Nat → Nat
  | [] => 0
  | b :: bs => b + 256 * leDecode bs

/-- `struct.pack_into` for a fully materialised data block: fails
(`struct.error`) unless the window fits in the buffer, otherwise
overwrites exactly the window `[offset, offset + data.length)`. -/
def packInto (data : List Nat) (buffer : List Nat) (offset : Nat) :
    Option (List Nat) :=
  if offset + data.length ≤ buffer.length then
    some (buffer.take offset ++ data ++ buffer.drop (offset + data.length))
  else
    none

/-- `struct.unpack_from` bounds check and window extraction: fails
(`struct.error`) unless `size` bytes are available at `offset`. -/
def readBytes (buffer : List Nat) (offset size : Nat) : Option (List Nat) :=
  if offset + size ≤ buffer.length then
    some ((buffer.drop offset).take size)
  else
    none

/-- The `CommandResponseMessage.Response` IntEnum
(`control.py`, lines 13–29). -/
inductive Response where
  | OK
  | UNSUPPORTED_CMD_VERSION
  | UNSUPPORTED_FEATURE
  | VALUE_ERROR
  | INSUFFICIENT_SPACE
  | EXECUTION_FAILURE
  deriving DecidableEq, Repr

/-- The integer value of each `Response` member. -/
def Response.toInt : Response → Nat
  | .OK => 0
  | .UNSUPPORTED_CMD_VERSION => 1
  | .UNSUPPORTED_FEATURE => 2
  | .VALUE_ERROR => 3
  | .INSUFFICIENT_SPACE => 4
  | .EXECUTION_FAILURE => 5

/-- The `Response(...)` IntEnum constructor: `some` member for the six
registered values, `none` (Python `ValueError`) otherwise. -/
def Response.fromByte : Nat → Option Response
  | 0 => some .OK
  | 1 => some .UNSUPPORTED_CMD_VERSION
  | 2 => some .UNSUPPORTED_FEATURE
  | 3 => some .VALUE_ERROR
  | 4 => some .INSUFFICIENT_SPACE
  | 5 => some .EXECUTION_FAILURE
  | _ => none

/-- Runtime value of the `self.response` attribute: either a `Response`
enum member, or the plain integer left in place when the
`Response(...)` conversion raised `ValueError` and the exception was
swallowed (`control.py`, lines 60–63). -/
inductive RespVal where
  | enum (r : Response)
  | raw (n : Nat)
  deriving DecidableEq, Repr

/-- Python `int(self.response)`; also the value `struct` packs for the
`B` field, via `__index__`. -/
def RespVal.toInt : RespVal → Nat
  | .enum r => r.toInt
  | .raw n => n

/-- Whether the attribute currently holds a `Response` enum member
(Python `isinstance(self.response, CommandResponseMessage.Response)`). -/
def RespVal.isEnum : RespVal → Bool
  | .enum _ => true
  | .raw _ => false

/-- The `try: self.response = Response(self.response) except ValueError:
pass` step of `CommandResponseMessage.unpack` applied to the raw decoded
byte. -/
def mkResp (n : Nat) : RespVal :=
  match Response.fromByte n with
  | some r => .enum r
  | none => .raw n

/-- Field state of a `CommandResponseMessage` instance. -/
structure CommandResponseMessage where
  source_sequence_num : Nat
  response : RespVal
  deriving DecidableEq, Repr

namespace CommandResponseMessage

/-- `_SIZE = struct.calcsize('<IB3x') = 8`. -/
def SIZE : Nat := 8

/-- `calcsize()` classmethod. -/
def calcsize : Nat := SIZE

/-- `__init__`: `source_sequence_num = 0`, `response = Response.OK`. -/
def init : CommandResponseMessage :=
  { source_sequence_num := 0, response := .enum .OK }

/-- `struct.pack` of `'<IB3x'` applied to `(seq, resp)`: range-checks
each field against its width (out of range raises `struct.error`) and
produces the u32 little-endian bytes, the u8 byte, and three zero pad
bytes. -/
def formatPack (seq resp : Nat) : Option (List Nat) :=
  if seq < 2 ^ 32 ∧ resp < 2 ^ 8 then
    some (leBytes 4 seq ++ leBytes 1 resp ++ [0, 0, 0])
  else
    none

/-- `CommandResponseMessage.pack` (lines 38–51).  `buffer = none` models
the `buffer is None` branch, which allocates `bytearray(self.calcsize())`.
Note the source sets `offset = _SIZE` (not `+=`), so the count returned
for `return_buffer=False` is `_SIZE - initial_offset`. -/
def pack (self : CommandResponseMessage) (buffer : Option (List Nat))
    (offset : Nat) : Option (List Nat × Int) :=
  let buf := buffer.getD (List.replicate calcsize 0)
  (formatPack self.source_sequence_num self.response.toInt).bind fun data =>
    (packInto data buf offset).map fun buf =>
      (buf, (SIZE : Int) - (offset : Int))

/-- `CommandResponseMessage.unpack` (lines 53–65).  The fallible
`struct.unpack_from` call precedes both field assignments; the
`Response(...)` conversion failure is swallowed, leaving the raw
integer.  As in `pack`, the source sets `offset = _SIZE`, so the
returned count is `_SIZE - initial_offset`. -/
def unpack (self : CommandResponseMessage) (buffer : List Nat)
    (offset : Nat) : CommandResponseMessage × Option Int :=
  match readBytes buffer offset SIZE with
  | none => (self, none)
  | some window =>
    let seq := leDecode (window.take 4)
    let b := leDecode ((window.drop 4).take 1)
    ({ source_sequence_num := seq, response := mkResp b },
      some ((SIZE : Int) - (offset : Int)))

end CommandResponseMessage

/-- Modelled from the spec: the `MessageType` class is defined in
`defs.py`, which is not among the sources here.  Per §3 the Message Type
Identifier is a 16-bit unsigned integer forming an open enumeration, and
per §4.5 a value with no registered catalog entry is still accepted and
stored by the constructor (the field is an identifier, not validated
against the catalog at decode time), so `MessageType(v)` is total over
the identifier domain and `.value` returns the stored integer. -/
structure MessageType where
  value : Nat
  deriving DecidableEq, Repr

/-- Field state of a `MessageRequest` instance. -/
structure MessageRequest where
  message_type : MessageType
  deriving DecidableEq, Repr

namespace MessageRequest

/-- `_SIZE = struct.calcsize('<H2x') = 4`. -/
def SIZE : Nat := 4

/-- `calcsize()` classmethod. -/
def calcsize : Nat := SIZE

/-- `struct.pack` of `'<H2x'` applied to `message_type.value`:
range-checks the u16 field and produces its little-endian bytes followed
by two zero pad bytes. -/
def formatPack (v : Nat) : Option (List Nat) :=
  if v < 2 ^ 16 then
    some (leBytes 2 v ++ [0, 0])
  else
    none

/-- `MessageRequest.pack` (lines 94–106).  This variant advances the
offset with `+=`, so the count returned for `return_buffer=False` is
exactly `_SIZE`. -/
def pack (self : MessageRequest) (buffer : Option (List Nat))
    (offset : Nat) : Option (List Nat × Int) :=
  let buf := buffer.getD (List.replicate calcsize 0)
  (formatPack self.message_type.value).bind fun data =>
    (packInto data buf offset).map fun buf => (buf, (SIZE : Int))

/-- `MessageRequest.unpack` (lines 108–116).  The fallible
`struct.unpack_from` call precedes the assignment of
`self.message_type = MessageType(message_type)`. -/
def unpack (self : MessageRequest) (buffer : List Nat) (offset : Nat) :
    MessageRequest × Option Int :=
  match readBytes buffer offset SIZE with
  | none => (self, none)
  | some window =>
    ({ message_type := ⟨leDecode (window.take 2)⟩ }, some (SIZE : Int))

end MessageRequest

/-- Field state of a `ResetRequest` instance. -/
structure ResetRequest where
  reset_mask : Nat
  deriving DecidableEq, Repr

namespace ResetRequest

/-- `_SIZE = struct.calcsize('<I') = 4`. -/
def SIZE : Nat := 4

/-- `calcsize()` classmethod. -/
def calcsize : Nat := SIZE

/-- `__init__`: `reset_mask = 0`. -/
def init : ResetRequest := { reset_mask := 0 }

/-- `struct.pack` of `'<I'` applied to `reset_mask`: range-checks the
u32 field and produces its little-endian bytes. -/
def formatPack (v : Nat) : Option (List Nat) :=
  if v < 2 ^ 32 then
    some (leBytes 4 v)
  else
    none

/-- `ResetRequest.pack` (lines 214–223).  The count returned for
`return_buffer=False` is `self.calcsize()`. -/
def pack (self : ResetRequest) (buffer : Option (List Nat))
    (offset : Nat) : Option (List Nat × Int) :=
  let buf := buffer.getD (List.replicate calcsize 0)
  (formatPack self.reset_mask).bind fun data =>
    (packInto data buf offset).map fun buf => (buf, (SIZE : Int))

/-- `ResetRequest.unpack` (lines 225–232).  The fallible
`struct.unpack_from` call precedes the assignment of `self.reset_mask`. -/
def unpack (self : ResetRequest) (buffer : List Nat) (offset : Nat) :
    ResetRequest × Option Int :=
  match readBytes buffer offset SIZE with
  | none => (self, none)
  | some window =>
    ({ reset_mask := leDecode (window.take 4) }, some (SIZE : Int))

end ResetRequest

/-! ### Helper lemmas -/

theorem leBytes_length (w v : Nat) : (leBytes w v).length = w := by
  induction w generalizing v with
  | zero => rfl
  | succ w ih => simp [leBytes, ih]

theorem leDecode_leBytes (w v : Nat) (h : v < 256 ^ w) :
    leDecode (leBytes w v) = v := by
  induction w generalizing v with
  | zero =>
    interval_cases v
    rfl
  | succ w ih =>
    have hdiv : v / 256 < 256 ^ w := by
      rw [Nat.div_lt_iff_lt_mul (by norm_num)]
      calc v < 256 ^ (w + 1) := h
        _ = 256 ^ w * 256 := by ring
    simp only [leBytes, leDecode, ih (v / 256) hdiv]
    omega

theorem mkResp_toInt (n : Nat) : (mkResp n).toInt = n := by
  rcases n with _ | _ | _ | _ | _ | _ | n <;> rfl

theorem mkResp_isEnum (n : Nat) : (mkResp n).isEnum = true ↔ n < 6 := by
  rcases n with _ | _ | _ | _ | _ | _ | n <;>
    simp [mkResp, Response.fromByte, RespVal.isEnum]

theorem drop_of_length_prefix (pre l : List Nat) (offset : Nat)
    (h : pre.length = offset) : (pre ++ l).drop offset = l := by
  subst h
  exact List.drop_left pre l

theorem leDecode_lt (l : List Nat) (h : ∀ b ∈ l, b < 256) :
    leDecode l < 256 ^ l.length := by
  induction l with
  | nil => simp [leDecode]
  | cons b bs ih =>
    have hb : b < 256 := h b (List.mem_cons_self b bs)
    have hbs : leDecode bs < 256 ^ bs.length :=
      ih fun x hx => h x (List.mem_cons_of_mem b hx)
    simp only [leDecode, List.length_cons, pow_succ]
    calc b + 256 * leDecode bs < 256 + 256 * leDecode bs := by omega
      _ = 256 * (leDecode bs + 1) := by ring
      _ ≤ 256 * 256 ^ bs.length := by
          exact Nat.mul_le_mul_left 256 hbs
      _ = 256 ^ bs.length * 256 := by ring

theorem packInto_frame (data buffer out : List Nat) (offset i : Nat)
    (hp : packInto data buffer offset = some out)
    (hi : i < offset ∨ offset + data.length ≤ i) :
    out[i]? = buffer[i]? := by
  unfold packInto at hp
  split at hp
  case isFalse => exact absurd hp (by simp)
  case isTrue hb =>
    injection hp with hp
    subst hp
    have htl : (buffer.take offset).length = offset := by
      rw [List.length_take]
      omega
    rcases hi with hlt | hge
    · rw [List.append_assoc, List.getElem?_append, htl, if_pos hlt,
        List.getElem?_take, if_pos hlt]
    · rw [List.append_assoc,
        List.getElem?_append_right (by rw [htl]; omega), htl,
        List.getElem?_append_right (by omega), List.getElem?_drop]
      congr 1
      omega

namespace CommandResponseMessage

theorem pack_some_cr (self : CommandResponseMessage) (buffer : List Nat)
    (offset : Nat)
    (h1 : self.source_sequence_num < 2 ^ 32)
    (h2 : self.response.toInt < 2 ^ 8)
    (hlen : offset + 8 ≤ buffer.length) :
    self.pack (some buffer) offset =
      some (buffer.take offset ++
        (leBytes 4 self.source_sequence_num ++
          leBytes 1 self.response.toInt ++ [0, 0, 0]) ++
        buffer.drop (offset + 8), (8 : Int) - (offset : Int)) := by
  have hdl : (leBytes 4 self.source_sequence_num ++
      leBytes 1 self.response.toInt ++ [0, 0, 0]).length = 8 := by
    simp [leBytes_length]
  unfold pack formatPack packInto
  simp only [Option.getD_some]
  rw [if_pos ⟨h1, h2⟩]
  simp only [Option.some_bind]
  simp only [hdl]
  rw [if_pos (by omega)]
  rfl

theorem pack_none0_cr (self : CommandResponseMessage)
    (h1 : self.source_sequence_num < 2 ^ 32)
    (h2 : self.response.toInt < 2 ^ 8) :
    self.pack none 0 =
      some (leBytes 4 self.source_sequence_num ++
        leBytes 1 self.response.toInt ++ [0, 0, 0], (8 : Int)) := by
  have hdl : (leBytes 4 self.source_sequence_num ++
      leBytes 1 self.response.toInt ++ [0, 0, 0]).length = 8 := by
    simp [leBytes_length]
  unfold pack formatPack packInto
  simp only [Option.getD_none]
  rw [if_pos ⟨h1, h2⟩]
  simp only [Option.some_bind]
  simp only [hdl]
  rw [if_pos (by simp [calcsize, SIZE])]
  simp [calcsize, SIZE]

theorem unpack_window_cr (self : CommandResponseMessage)
    (pre w suf : List Nat) (offset : Nat)
    (hoff : pre.length = offset) (hw : w.length = 8) :
    self.unpack (pre ++ w ++ suf) offset =
      ({ source_sequence_num := leDecode (w.take 4),
         response := mkResp (leDecode ((w.drop 4).take 1)) },
        some ((8 : Int) - (offset : Int))) := by
  have hrb : readBytes (pre ++ w ++ suf) offset SIZE = some w := by
    unfold readBytes
    rw [if_pos (by simp [SIZE, List.length_append, hoff, hw])]
    rw [List.append_assoc, drop_of_length_prefix _ _ _ hoff,
      List.take_left' (by rw [hw]; rfl)]
  unfold unpack
  rw [hrb]
  rfl

end CommandResponseMessage

namespace MessageRequest

theorem pack_some_mr (self : MessageRequest) (buffer : List Nat) (offset : Nat)
    (h1 : self.message_type.value < 2 ^ 16)
    (hlen : offset + 4 ≤ buffer.length) :
    self.pack (some buffer) offset =
      some (buffer.take offset ++
        (leBytes 2 self.message_type.value ++ [0, 0]) ++
        buffer.drop (offset + 4), (4 : Int)) := by
  have hdl : (leBytes 2 self.message_type.value ++ [0, 0]).length = 4 := by
    simp [leBytes_length]
  unfold pack formatPack packInto
  simp only [Option.getD_some]
  rw [if_pos h1]
  simp only [Option.some_bind]
  simp only [hdl]
  rw [if_pos (by omega)]
  rfl

theorem pack_none0_mr (self : MessageRequest)
    (h1 : self.message_type.value < 2 ^ 16) :
    self.pack none 0 =
      some (leBytes 2 self.message_type.value ++ [0, 0], (4 : Int)) := by
  have hdl : (leBytes 2 self.message_type.value ++ [0, 0]).length = 4 := by
    simp [leBytes_length]
  unfold pack formatPack packInto
  simp only [Option.getD_none]
  rw [if_pos h1]
  simp only [Option.some_bind]
  simp only [hdl]
  rw [if_pos (by simp [calcsize, SIZE])]
  simp [calcsize, SIZE]

theorem unpack_window_mr (self : MessageRequest)
    (pre w suf : List Nat) (offset : Nat)
    (hoff : pre.length = offset) (hw : w.length = 4) :
    self.unpack (pre ++ w ++ suf) offset =
      ({ message_type := ⟨leDecode (w.take 2)⟩ }, some (4 : Int)) := by
  have hrb : readBytes (pre ++ w ++ suf) offset SIZE = some w := by
    unfold readBytes
    rw [if_pos (by simp [SIZE, List.length_append, hoff, hw])]
    rw [List.append_assoc, drop_of_length_prefix _ _ _ hoff,
      List.take_left' (by rw [hw]; rfl)]
  unfold unpack
  rw [hrb]
  rfl

end MessageRequest

namespace ResetRequest

theorem pack_some_rr (self : ResetRequest) (buffer : List Nat) (offset : Nat)
    (h1 : self.reset_mask < 2 ^ 32)
    (hlen : offset + 4 ≤ buffer.length) :
    self.pack (some buffer) offset =
      some (buffer.take offset ++ leBytes 4 self.reset_mask ++
        buffer.drop (offset + 4), (4 : Int)) := by
  have hdl : (leBytes 4 self.reset_mask).length = 4 := leBytes_length 4 _
  unfold pack formatPack packInto
  simp only [Option.getD_some]
  rw [if_pos h1]
  simp only [Option.some_bind]
  simp only [hdl]
  rw [if_pos (by omega)]
  rfl

theorem pack_none0_rr (self : ResetRequest) (h1 : self.reset_mask < 2 ^ 32) :
    self.pack none 0 = some (leBytes 4 self.reset_mask, (4 : Int)) := by
  have hdl : (leBytes 4 self.reset_mask).length = 4 := leBytes_length 4 _
  unfold pack formatPack packInto
  simp only [Option.getD_none]
  rw [if_pos h1]
  simp only [Option.some_bind]
  simp only [hdl]
  rw [if_pos (by simp [calcsize, SIZE])]
  simp [calcsize, SIZE]

theorem unpack_window_rr (self : ResetRequest)
    (pre w suf : List Nat) (offset : Nat)
    (hoff : pre.length = offset) (hw : w.length = 4) :
    self.unpack (pre ++ w ++ suf) offset =
      ({ reset_mask := leDecode (w.take 4) }, some (4 : Int)) := by
  have hrb : readBytes (pre ++ w ++ suf) offset SIZE = some w := by
    unfold readBytes
    rw [if_pos (by simp [SIZE, List.length_append, hoff, hw])]
    rw [List.append_assoc, drop_of_length_prefix _ _ _ hoff,
      List.take_left' (by rw [hw]; rfl)]
  unfold unpack
  rw [hrb]
  rfl

end ResetRequest

theorem CommandResponseMessage.pack_eq_packInto_cr
    (self : CommandResponseMessage) (b out : List Nat) (n : Int) (o : Nat)
    (hp : self.pack (some b) o = some (out, n)) :
    ∃ data, data.length = CommandResponseMessage.SIZE ∧
      packInto data b o = some out := by
  unfold CommandResponseMessage.pack at hp
  simp only [Option.getD_some] at hp
  cases hf : CommandResponseMessage.formatPack self.source_sequence_num
      self.response.toInt
  case none => rw [hf] at hp; simp at hp
  case some data =>
    rw [hf] at hp
    simp only [Option.some_bind] at hp
    refine ⟨data, ?_, ?_⟩
    · unfold CommandResponseMessage.formatPack at hf
      split at hf
      · injection hf with hf
        subst hf
        simp [leBytes_length, CommandResponseMessage.SIZE]
      · exact absurd hf (by simp)
    · cases hpi : packInto data b o
      case none => rw [hpi] at hp; simp at hp
      case some buf =>
        rw [hpi] at hp
        simp only [Option.map_some', Option.some.injEq, Prod.mk.injEq] at hp
        rw [hp.1]

theorem MessageRequest.pack_eq_packInto_mr
    (self : MessageRequest) (b out : List Nat) (n : Int) (o : Nat)
    (hp : self.pack (some b) o = some (out, n)) :
    ∃ data, data.length = MessageRequest.SIZE ∧
      packInto data b o = some out := by
  unfold MessageRequest.pack at hp
  simp only [Option.getD_some] at hp
  cases hf : MessageRequest.formatPack self.message_type.value
  case none => rw [hf] at hp; simp at hp
  case some data =>
    rw [hf] at hp
    simp only [Option.some_bind] at hp
    refine ⟨data, ?_, ?_⟩
    · unfold MessageRequest.formatPack at hf
      split at hf
      · injection hf with hf
        subst hf
        simp [leBytes_length, MessageRequest.SIZE]
      · exact absurd hf (by simp)
    · cases hpi : packInto data b o
      case none => rw [hpi] at hp; simp at hp
      case some buf =>
        rw [hpi] at hp
        simp only [Option.map_some', Option.some.injEq, Prod.mk.injEq] at hp
        rw [hp.1]

theorem ResetRequest.pack_eq_packInto_rr
    (self : ResetRequest) (b out : List Nat) (n : Int) (o : Nat)
    (hp : self.pack (some b) o = some (out, n)) :
    ∃ data, data.length = ResetRequest.SIZE ∧
      packInto data b o = some out := by
  unfold ResetRequest.pack at hp
  simp only [Option.getD_some] at hp
  cases hf : ResetRequest.formatPack self.reset_mask
  case none => rw [hf] at hp; simp at hp
  case some data =>
    rw [hf] at hp
    simp only [Option.some_bind] at hp
    refine ⟨data, ?_, ?_⟩
    · unfold ResetRequest.formatPack at hf
      split at hf
      · injection hf with hf
        subst hf
        simp [leBytes_length, ResetRequest.SIZE]
      · exact absurd hf (by simp)
    · cases hpi : packInto data b o
      case none => rw [hpi] at hp; simp at hp
      case some buf =>
        rw [hpi] at hp
        simp only [Option.map_some', Option.some.injEq, Prod.mk.injEq] at hp
        rw [hp.1]

theorem MessageRequest.pack_some_inv (self : MessageRequest)
    (b out : List Nat) (n : Int) (o : Nat)
    (hp : self.pack (some b) o = some (out, n)) :
    self.message_type.value < 2 ^ 16 ∧ o + 4 ≤ b.length := by
  unfold MessageRequest.pack MessageRequest.formatPack packInto at hp
  simp only [Option.getD_some] at hp
  by_cases h1 : self.message_type.value < 2 ^ 16
  · rw [if_pos h1] at hp
    simp only [Option.some_bind] at hp
    by_cases h2 : o + (leBytes 2 self.message_type.value ++ [0, 0]).length ≤
        b.length
    · refine ⟨h1, ?_⟩
      have hdl : (leBytes 2 self.message_type.value ++ [0, 0]).length = 4 := by
        simp [leBytes_length]
      omega
    · rw [if_neg h2] at hp
      simp at hp
  · rw [if_neg h1] at hp
    simp at hp

theorem MessageRequest.pack_pads_zero (self : MessageRequest)
    (b out : List Nat) (n : Int) (o : Nat)
    (hp : self.pack (some b) o = some (out, n)) :
    out[o + 2]? = some 0 ∧ out[o + 3]? = some 0 := by
  obtain ⟨h1, hlen⟩ := MessageRequest.pack_some_inv self b out n o hp
  have hps := MessageRequest.pack_some_mr self b o h1 hlen
  rw [hp] at hps
  simp only [Option.some.injEq, Prod.mk.injEq] at hps
  rw [hps.1]
  have htl : (b.take o).length = o := by
    rw [List.length_take]
    omega
  constructor
  · rw [List.getElem?_append,
      if_pos (by simp only [List.length_append, htl, leBytes_length,
        List.length_cons, List.length_nil]; omega)]
    rw [List.getElem?_append_right (by rw [htl]; omega), htl,
      show o + 2 - o = 2 from by omega,
      List.getElem?_append_right (by simp [leBytes_length]),
      leBytes_length]
    rfl
  · rw [List.getElem?_append,
      if_pos (by simp only [List.length_append, htl, leBytes_length,
        List.length_cons, List.length_nil]; omega)]
    rw [List.getElem?_append_right (by rw [htl]; omega), htl,
      show o + 3 - o = 3 from by omega,
      List.getElem?_append_right (by simp [leBytes_length]),
      leBytes_length]
    rfl

/-! ### Claim theorems -/

/-- C6: encoding a `CommandResponseMessage` with `source_sequence_num = 42`
and `response = VALUE_ERROR` produces exactly the 8 bytes
`2A 00 00 00 03 00 00 00` (u32 little-endian sequence number, u8 response
code, three zero padding bytes), and decoding those 8 bytes into a fresh
instance yields `source_sequence_num = 42` and `response = VALUE_ERROR`. -/
theorem C6_command_response_scenario :
    CommandResponseMessage.pack
        { source_sequence_num := 42, response := .enum .VALUE_ERROR } none 0 =
      some ([0x2A, 0, 0, 0, 3, 0, 0, 0], 8) ∧
    CommandResponseMessage.unpack CommandResponseMessage.init
        [0x2A, 0, 0, 0, 3, 0, 0, 0] 0 =
      ({ source_sequence_num := 42, response := .enum .VALUE_ERROR },
        some 8) := by
  exact ⟨rfl, rfl⟩

/-- C2 evaluated at the failing input: `CommandResponseMessage.pack` into a
16-byte buffer at offset 1 does write its 8 bytes starting at offset 1, but
returns 7 (the source computes `offset = _SIZE` instead of `offset += _SIZE`,
so the count is `_SIZE - initial_offset`), not `fixed_size() = 8`; `unpack`
at offset 1 likewise returns 7 instead of 8.  The other two variants return
their `fixed_size() = 4` as the claim states. -/
theorem C2_command_response_count_bug :
    CommandResponseMessage.pack
        { source_sequence_num := 42, response := .enum .VALUE_ERROR }
        (some (List.replicate 16 0)) 1 =
      some ([0, 0x2A, 0, 0, 0, 3, 0, 0, 0, 0, 0, 0, 0, 0, 0, 0], 7) ∧
    (CommandResponseMessage.unpack CommandResponseMessage.init
        (List.replicate 16 0) 1).2 = some 7 ∧
    (MessageRequest.pack ⟨⟨5⟩⟩ (some (List.replicate 16 0)) 1).map Prod.snd =
      some 4 ∧
    (ResetRequest.pack ⟨9⟩ (some (List.replicate 16 0)) 1).map Prod.snd =
      some 4 := by
  refine ⟨rfl, rfl, rfl, rfl⟩

/-- C5: decoding a buffer shorter than the variant's fixed size fails with
the out-of-bounds error surfaced to the caller (`unpack` result `none`) and
never partially succeeds (the instance keeps its prior field values); in
particular `ResetRequest.unpack` on a 3-byte buffer (fixed size 4) fails. -/
theorem C5_short_buffer_decode_fails
    (cr : CommandResponseMessage) (mr : MessageRequest) (rr : ResetRequest)
    (b1 b2 b3 : List Nat) (o1 o2 o3 : Nat)
    (h1 : b1.length < o1 + CommandResponseMessage.SIZE)
    (h2 : b2.length < o2 + MessageRequest.SIZE)
    (h3 : b3.length < o3 + ResetRequest.SIZE) :
    cr.unpack b1 o1 = (cr, none) ∧ mr.unpack b2 o2 = (mr, none) ∧
      rr.unpack b3 o3 = (rr, none) ∧
      rr.unpack [0, 0, 0] 0 = (rr, none) := by
  refine ⟨?_, ?_, ?_, ?_⟩
  · unfold CommandResponseMessage.unpack readBytes
    rw [if_neg (by omega)]
  · unfold MessageRequest.unpack readBytes
    rw [if_neg (by omega)]
  · unfold ResetRequest.unpack readBytes
    rw [if_neg (by omega)]
  · unfold ResetRequest.unpack readBytes
    rw [if_neg (by decide)]

/-- Witness for C5 at concrete inputs (empty buffers, offset 0). -/
theorem C5_short_buffer_decode_fails_witness :
    CommandResponseMessage.init.unpack [] 0 =
        (CommandResponseMessage.init, none) ∧
      MessageRequest.unpack ⟨⟨0⟩⟩ [] 0 = (⟨⟨0⟩⟩, none) ∧
      ResetRequest.init.unpack [] 0 = (ResetRequest.init, none) ∧
      ResetRequest.init.unpack [0, 0, 0] 0 = (ResetRequest.init, none) :=
  C5_short_buffer_decode_fails CommandResponseMessage.init ⟨⟨0⟩⟩
    ResetRequest.init [] [] [] 0 0 0 (by decide) (by decide) (by decide)

/-- C9: decode failure is atomic — for each variant, if `unpack` raises, the
instance's declared fields retain exactly the values they had before the
call (in the source, the fallible `struct.unpack_from` call precedes every
field assignment). -/
theorem C9_unpack_failure_atomic
    (cr : CommandResponseMessage) (mr : MessageRequest) (rr : ResetRequest)
    (b1 b2 b3 : List Nat) (o1 o2 o3 : Nat)
    (h1 : (cr.unpack b1 o1).2 = none)
    (h2 : (mr.unpack b2 o2).2 = none)
    (h3 : (rr.unpack b3 o3).2 = none) :
    (cr.unpack b1 o1).1 = cr ∧ (mr.unpack b2 o2).1 = mr ∧
      (rr.unpack b3 o3).1 = rr := by
  refine ⟨?_, ?_, ?_⟩
  · unfold CommandResponseMessage.unpack at h1 ⊢
    cases hr : readBytes b1 o1 CommandResponseMessage.SIZE
    · rfl
    · rw [hr] at h1
      simp at h1
  · unfold MessageRequest.unpack at h2 ⊢
    cases hr : readBytes b2 o2 MessageRequest.SIZE
    · rfl
    · rw [hr] at h2
      simp at h2
  · unfold ResetRequest.unpack at h3 ⊢
    cases hr : readBytes b3 o3 ResetRequest.SIZE
    · rfl
    · rw [hr] at h3
      simp at h3

/-- C1: for each of the three variants and every valid assignment of its
declared fields (each field within its wire width), encoding with `pack`
and decoding the produced bytes with `unpack` into a fresh instance yields
an object whose fields equal the original's in Python's `==` sense: equal
sequence numbers / identifiers / masks, and for the open `response` field
equal `int(...)` values (a Python `IntEnum` member compares equal to its
integer value). -/
theorem C1_pack_unpack_roundtrip
    (cr : CommandResponseMessage) (mr : MessageRequest) (rr : ResetRequest)
    (hseq : cr.source_sequence_num < 2 ^ 32)
    (hresp : cr.response.toInt < 2 ^ 8)
    (hmt : mr.message_type.value < 2 ^ 16)
    (hmask : rr.reset_mask < 2 ^ 32) :
    (∃ buf, cr.pack none 0 = some (buf, 8) ∧
      (CommandResponseMessage.init.unpack buf 0).2 = some 8 ∧
      (CommandResponseMessage.init.unpack buf 0).1.source_sequence_num =
        cr.source_sequence_num ∧
      (CommandResponseMessage.init.unpack buf 0).1.response.toInt =
        cr.response.toInt) ∧
    (∃ buf, mr.pack none 0 = some (buf, 4) ∧
      MessageRequest.unpack ⟨⟨0⟩⟩ buf 0 = (mr, some 4)) ∧
    (∃ buf, rr.pack none 0 = some (buf, 4) ∧
      ResetRequest.init.unpack buf 0 = (rr, some 4)) := by
  refine ⟨?_, ?_, ?_⟩
  · refine ⟨leBytes 4 cr.source_sequence_num ++
      leBytes 1 cr.response.toInt ++ [0, 0, 0],
      cr.pack_none0_cr hseq hresp, ?_⟩
    have hu := CommandResponseMessage.unpack_window_cr CommandResponseMessage.init
      [] (leBytes 4 cr.source_sequence_num ++
        leBytes 1 cr.response.toInt ++ [0, 0, 0]) [] 0 rfl
      (by simp [leBytes_length])
    simp only [List.nil_append, List.append_nil] at hu
    have ht : (leBytes 4 cr.source_sequence_num ++
        leBytes 1 cr.response.toInt ++ [0, 0, 0]).take 4 =
        leBytes 4 cr.source_sequence_num := by
      rw [List.append_assoc]
      exact List.take_left' (leBytes_length 4 _)
    have hd : (leBytes 4 cr.source_sequence_num ++
        leBytes 1 cr.response.toInt ++ [0, 0, 0]).drop 4 =
        leBytes 1 cr.response.toInt ++ [0, 0, 0] := by
      rw [List.append_assoc]
      exact List.drop_left' (leBytes_length 4 _)
    have hd1 : (leBytes 1 cr.response.toInt ++ [0, 0, 0]).take 1 =
        leBytes 1 cr.response.toInt :=
      List.take_left' (leBytes_length 1 _)
    rw [hu]
    refine ⟨by norm_num, ?_, ?_⟩
    · simp only [ht]
      exact leDecode_leBytes 4 _ hseq
    · simp only [hd, hd1]
      rw [leDecode_leBytes 1 _ (by simpa using hresp)]
      exact mkResp_toInt _
  · refine ⟨leBytes 2 mr.message_type.value ++ [0, 0],
      mr.pack_none0_mr hmt, ?_⟩
    have hu := MessageRequest.unpack_window_mr ⟨⟨0⟩⟩
      [] (leBytes 2 mr.message_type.value ++ [0, 0]) [] 0 rfl
      (by simp [leBytes_length])
    simp only [List.nil_append, List.append_nil] at hu
    rw [hu, List.take_left' (leBytes_length 2 _),
      leDecode_leBytes 2 _ (by simpa using hmt)]
  · refine ⟨leBytes 4 rr.reset_mask, rr.pack_none0_rr hmask, ?_⟩
    have hu := ResetRequest.unpack_window_rr ResetRequest.init
      [] (leBytes 4 rr.reset_mask) [] 0 rfl (leBytes_length 4 _)
    simp only [List.nil_append, List.append_nil] at hu
    rw [hu, List.take_of_length_le (by rw [leBytes_length]),
      leDecode_leBytes 4 _ hmask]

/-- Witness for C1 at a concrete instance of each variant. -/
theorem C1_pack_unpack_roundtrip_witness :
    (∃ buf, CommandResponseMessage.pack
        { source_sequence_num := 42, response := .raw 200 } none 0 =
        some (buf, 8) ∧
      (CommandResponseMessage.init.unpack buf 0).2 = some 8 ∧
      (CommandResponseMessage.init.unpack buf 0).1.source_sequence_num = 42 ∧
      (CommandResponseMessage.init.unpack buf 0).1.response.toInt =
        RespVal.toInt (.raw 200)) ∧
    (∃ buf, MessageRequest.pack ⟨⟨0x1234⟩⟩ none 0 = some (buf, 4) ∧
      MessageRequest.unpack ⟨⟨0⟩⟩ buf 0 = (⟨⟨0x1234⟩⟩, some 4)) ∧
    (∃ buf, ResetRequest.pack ⟨0x1FF⟩ none 0 = some (buf, 4) ∧
      ResetRequest.init.unpack buf 0 = (⟨0x1FF⟩, some 4)) :=
  C1_pack_unpack_roundtrip
    { source_sequence_num := 42, response := .raw 200 } ⟨⟨0x1234⟩⟩ ⟨0x1FF⟩
    (by norm_num) (by norm_num [RespVal.toInt]) (by norm_num) (by norm_num)

/-- C3: `MessageRequest.unpack`, given a buffer whose u16
`requested_message_type` field holds any identifier value `v` — in
particular one with no registered catalog entry — succeeds rather than
raising, stores the raw numeric value in the `message_type` field, and the
value round-trips through re-encoding (the two little-endian value bytes
are reproduced). -/
theorem C3_message_request_unrecognized_type
    (self : MessageRequest) (v p1 p2 offset : Nat) (pre suf : List Nat)
    (hoff : pre.length = offset) (hv : v < 2 ^ 16) :
    self.unpack (pre ++ (leBytes 2 v ++ [p1, p2]) ++ suf) offset =
      ({ message_type := ⟨v⟩ }, some 4) ∧
    MessageRequest.pack ⟨⟨v⟩⟩ none 0 =
      some (leBytes 2 v ++ [0, 0], 4) := by
  constructor
  · rw [MessageRequest.unpack_window_mr self pre _ suf offset hoff
      (by simp [leBytes_length]),
      List.take_left' (leBytes_length 2 _),
      leDecode_leBytes 2 _ (by simpa using hv)]
  · exact MessageRequest.pack_none0_mr ⟨⟨v⟩⟩ hv

/-- Witness for C3 at the unregistered identifier value 12345. -/
theorem C3_message_request_unrecognized_type_witness :
    MessageRequest.unpack ⟨⟨0⟩⟩
        ([1, 1] ++ (leBytes 2 12345 ++ [7, 9]) ++ [5]) 2 =
      ({ message_type := ⟨12345⟩ }, some 4) ∧
    MessageRequest.pack ⟨⟨12345⟩⟩ none 0 =
      some (leBytes 2 12345 ++ [0, 0], 4) :=
  C3_message_request_unrecognized_type ⟨⟨0⟩⟩ 12345 7 9 2 [1, 1] [5]
    rfl (by norm_num)

/-- C4: `CommandResponseMessage.unpack` on a buffer whose response byte is
200 (outside the six named `Response` outcomes) succeeds without raising,
leaves `int(self.response) = 200` (the raw integer is retained), and
re-encoding the resulting instance with `pack` reproduces the byte 200 at
payload offset 4. -/
theorem C4_command_response_unknown_enum_200
    (self : CommandResponseMessage) (offset : Nat) (pre suf : List Nat)
    (b0 b1 b2 b3 p5 p6 p7 : Nat) (hoff : pre.length = offset)
    (hb0 : b0 < 256) (hb1 : b1 < 256) (hb2 : b2 < 256) (hb3 : b3 < 256) :
    (self.unpack (pre ++ [b0, b1, b2, b3, 200, p5, p6, p7] ++ suf)
        offset).2 = some ((8 : Int) - (offset : Int)) ∧
    (self.unpack (pre ++ [b0, b1, b2, b3, 200, p5, p6, p7] ++ suf)
        offset).1.response.toInt = 200 ∧
    ∃ out, (self.unpack (pre ++ [b0, b1, b2, b3, 200, p5, p6, p7] ++ suf)
        offset).1.pack none 0 = some (out, 8) ∧ out[4]? = some 200 := by
  have hu := CommandResponseMessage.unpack_window_cr self pre
    [b0, b1, b2, b3, 200, p5, p6, p7] suf offset hoff rfl
  rw [hu]
  have hseq : leDecode [b0, b1, b2, b3] < 2 ^ 32 := by
    have h := leDecode_lt [b0, b1, b2, b3] (by
      intro x hx
      simp only [List.mem_cons, List.not_mem_nil, or_false] at hx
      rcases hx with h | h | h | h <;> subst h <;> assumption)
    rw [show ([b0, b1, b2, b3] : List Nat).length = 4 from rfl] at h
    rw [show (2 : Nat) ^ 32 = 256 ^ 4 from by norm_num]
    exact h
  refine ⟨rfl, rfl, ?_⟩
  refine ⟨leBytes 4 (leDecode [b0, b1, b2, b3]) ++ leBytes 1 200 ++
    [0, 0, 0], ?_, ?_⟩
  · exact CommandResponseMessage.pack_none0_cr
      { source_sequence_num := leDecode [b0, b1, b2, b3],
        response := .raw 200 } hseq (by norm_num [RespVal.toInt])
  · rw [List.getElem?_append, if_pos (by simp [leBytes_length])]
    rw [List.getElem?_append_right (by simp [leBytes_length])]
    simp [leBytes_length, leBytes]

/-- Witness for C4 at a concrete buffer. -/
theorem C4_command_response_unknown_enum_200_witness :
    (CommandResponseMessage.init.unpack
        ([9] ++ [1, 2, 3, 4, 200, 11, 12, 13] ++ [6]) 1).2 =
      some ((8 : Int) - (1 : Nat)) ∧
    (CommandResponseMessage.init.unpack
        ([9] ++ [1, 2, 3, 4, 200, 11, 12, 13] ++ [6]) 1).1.response.toInt =
      200 ∧
    ∃ out, (CommandResponseMessage.init.unpack
        ([9] ++ [1, 2, 3, 4, 200, 11, 12, 13] ++ [6]) 1).1.pack none 0 =
      some (out, 8) ∧ out[4]? = some 200 :=
  C4_command_response_unknown_enum_200 CommandResponseMessage.init 1 [9] [6]
    1 2 3 4 11 12 13 rfl (by norm_num) (by norm_num) (by norm_num)
    (by norm_num)

/-- C10: `CommandResponseMessage.unpack` is total over the response byte:
for every byte value at payload offset 4 of a sufficiently long buffer it
succeeds, `int(self.response)` equals the decoded byte, and afterwards
`self.response` is a `Response` enum member exactly when the byte is one of
the six named values 0..5 (and the plain integer otherwise). -/
theorem C10_command_response_total_over_byte
    (self : CommandResponseMessage) (offset : Nat) (pre suf : List Nat)
    (b0 b1 b2 b3 b p5 p6 p7 : Nat)
    (hoff : pre.length = offset) (hb : b < 256) :
    (self.unpack (pre ++ [b0, b1, b2, b3, b, p5, p6, p7] ++ suf)
        offset).2 = some ((8 : Int) - (offset : Int)) ∧
    (self.unpack (pre ++ [b0, b1, b2, b3, b, p5, p6, p7] ++ suf)
        offset).1.response.toInt = b ∧
    ((self.unpack (pre ++ [b0, b1, b2, b3, b, p5, p6, p7] ++ suf)
        offset).1.response.isEnum = true ↔ b < 6) := by
  have hu := CommandResponseMessage.unpack_window_cr self pre
    [b0, b1, b2, b3, b, p5, p6, p7] suf offset hoff rfl
  have hlb : leDecode (List.take 1
      (List.drop 4 [b0, b1, b2, b3, b, p5, p6, p7])) = b := by
    show leDecode [b] = b
    simp [leDecode]
  rw [hlb] at hu
  rw [hu]
  exact ⟨rfl, mkResp_toInt b, mkResp_isEnum b⟩

/-- Witness for C10 at byte value 200 (and concrete surrounding bytes). -/
theorem C10_command_response_total_over_byte_witness :
    (CommandResponseMessage.init.unpack
        ([] ++ [1, 0, 0, 0, 200, 0, 0, 0] ++ []) 0).2 =
      some ((8 : Int) - (0 : Nat)) ∧
    (CommandResponseMessage.init.unpack
        ([] ++ [1, 0, 0, 0, 200, 0, 0, 0] ++ []) 0).1.response.toInt =
      200 ∧
    ((CommandResponseMessage.init.unpack
        ([] ++ [1, 0, 0, 0, 200, 0, 0, 0] ++ []) 0).1.response.isEnum =
      true ↔ 200 < 6) :=
  C10_command_response_total_over_byte CommandResponseMessage.init 0 [] []
    1 0 0 0 200 0 0 0 rfl (by norm_num)

/-- C7: padding bytes are always written as zero and ignored on read: for
every `MessageRequest` and every prior buffer contents, a successful `pack`
leaves zero bytes at payload offsets 2 and 3; and for every variant,
decoding two buffers that differ only in their padding bytes (and in the
surrounding context) yields instances with equal fields (`ResetRequest`
has no padding bytes, so its conjunct fixes the whole 4-byte window). -/
theorem C7_padding_zeroed_and_ignored
    (mq : MessageRequest) (b out : List Nat) (cnt : Int) (o : Nat)
    (hpack : mq.pack (some b) o = some (out, cnt))
    (cra crb : CommandResponseMessage) (o1 o2 : Nat)
    (pre1 pre2 suf1 suf2 : List Nat)
    (c0 c1 c2 c3 r x5 x6 x7 y5 y6 y7 : Nat)
    (h1 : pre1.length = o1) (h2 : pre2.length = o2)
    (mra mrb : MessageRequest) (o3 o4 : Nat)
    (pre3 pre4 suf3 suf4 : List Nat) (t0 t1 u2 u3 v2 v3 : Nat)
    (h3 : pre3.length = o3) (h4 : pre4.length = o4)
    (rra rrb : ResetRequest) (o5 o6 : Nat)
    (pre5 pre6 suf5 suf6 : List Nat) (m0 m1 m2 m3 : Nat)
    (h5 : pre5.length = o5) (h6 : pre6.length = o6) :
    out[o + 2]? = some 0 ∧ out[o + 3]? = some 0 ∧
    (cra.unpack (pre1 ++ [c0, c1, c2, c3, r, x5, x6, x7] ++ suf1) o1).1 =
      (crb.unpack (pre2 ++ [c0, c1, c2, c3, r, y5, y6, y7] ++ suf2) o2).1 ∧
    (mra.unpack (pre3 ++ [t0, t1, u2, u3] ++ suf3) o3).1 =
      (mrb.unpack (pre4 ++ [t0, t1, v2, v3] ++ suf4) o4).1 ∧
    (rra.unpack (pre5 ++ [m0, m1, m2, m3] ++ suf5) o5).1 =
      (rrb.unpack (pre6 ++ [m0, m1, m2, m3] ++ suf6) o6).1 := by
  obtain ⟨hz2, hz3⟩ := MessageRequest.pack_pads_zero mq b out cnt o hpack
  refine ⟨hz2, hz3, ?_, ?_, ?_⟩
  · rw [CommandResponseMessage.unpack_window_cr cra pre1
      [c0, c1, c2, c3, r, x5, x6, x7] suf1 o1 h1 rfl,
      CommandResponseMessage.unpack_window_cr crb pre2
      [c0, c1, c2, c3, r, y5, y6, y7] suf2 o2 h2 rfl]
    rfl
  · rw [MessageRequest.unpack_window_mr mra pre3 [t0, t1, u2, u3] suf3 o3
      h3 rfl,
      MessageRequest.unpack_window_mr mrb pre4 [t0, t1, v2, v3] suf4 o4
      h4 rfl]
    rfl
  · rw [ResetRequest.unpack_window_rr rra pre5 [m0, m1, m2, m3] suf5 o5
      h5 rfl,
      ResetRequest.unpack_window_rr rrb pre6 [m0, m1, m2, m3] suf6 o6
      h6 rfl]

/-- Witness for C7 at concrete instances and buffers. -/
theorem C7_padding_zeroed_and_ignored_witness :
    ([9, 5, 0, 0, 0, 9, 9, 9] : List Nat)[3]? = some 0 ∧
    ([9, 5, 0, 0, 0, 9, 9, 9] : List Nat)[4]? = some 0 ∧
    (CommandResponseMessage.init.unpack
        ([] ++ [1, 2, 3, 4, 200, 11, 12, 13] ++ []) 0).1 =
      (CommandResponseMessage.unpack ⟨3, .raw 7⟩
        ([9] ++ [1, 2, 3, 4, 200, 21, 22, 23] ++ [4]) 1).1 ∧
    (MessageRequest.unpack ⟨⟨0⟩⟩ ([] ++ [52, 18, 5, 6] ++ [1]) 0).1 =
      (MessageRequest.unpack ⟨⟨1⟩⟩ ([8, 8] ++ [52, 18, 7, 8] ++ []) 2).1 ∧
    (ResetRequest.init.unpack ([] ++ [255, 1, 0, 0] ++ []) 0).1 =
      (ResetRequest.unpack ⟨5⟩ ([2] ++ [255, 1, 0, 0] ++ [3, 3]) 1).1 :=
  C7_padding_zeroed_and_ignored ⟨⟨5⟩⟩ (List.replicate 8 9)
    [9, 5, 0, 0, 0, 9, 9, 9] 4 1 (by rfl)
    CommandResponseMessage.init ⟨3, .raw 7⟩ 0 1 [] [9] [] [4]
    1 2 3 4 200 11 12 13 21 22 23 rfl rfl
    ⟨⟨0⟩⟩ ⟨⟨1⟩⟩ 0 2 [] [8, 8] [1] [] 52 18 5 6 7 8 rfl rfl
    ResetRequest.init ⟨5⟩ 0 1 [] [2] [] [3, 3] 255 1 0 0 rfl rfl

/-- C8: `pack` writes only its own fixed-size window — when called with a
caller-supplied buffer and an offset such that the write fits, every byte
of the buffer outside `[offset, offset + fixed_size())` is unchanged, for
all three variants. -/
theorem C8_pack_frame
    (cr : CommandResponseMessage) (mr : MessageRequest) (rr : ResetRequest)
    (b1 b2 b3 out1 out2 out3 : List Nat) (n1 n2 n3 : Int)
    (o1 o2 o3 i1 i2 i3 : Nat)
    (hp1 : cr.pack (some b1) o1 = some (out1, n1))
    (hp2 : mr.pack (some b2) o2 = some (out2, n2))
    (hp3 : rr.pack (some b3) o3 = some (out3, n3))
    (hi1 : i1 < o1 ∨ o1 + CommandResponseMessage.SIZE ≤ i1)
    (hi2 : i2 < o2 ∨ o2 + MessageRequest.SIZE ≤ i2)
    (hi3 : i3 < o3 ∨ o3 + ResetRequest.SIZE ≤ i3) :
    out1[i1]? = b1[i1]? ∧ out2[i2]? = b2[i2]? ∧ out3[i3]? = b3[i3]? := by
  refine ⟨?_, ?_, ?_⟩
  · obtain ⟨data, hlen, hpi⟩ :=
      CommandResponseMessage.pack_eq_packInto_cr cr b1 out1 n1 o1 hp1
    exact packInto_frame data b1 out1 o1 i1 hpi (by rw [hlen]; exact hi1)
  · obtain ⟨data, hlen, hpi⟩ :=
      MessageRequest.pack_eq_packInto_mr mr b2 out2 n2 o2 hp2
    exact packInto_frame data b2 out2 o2 i2 hpi (by rw [hlen]; exact hi2)
  · obtain ⟨data, hlen, hpi⟩ :=
      ResetRequest.pack_eq_packInto_rr rr b3 out3 n3 o3 hp3
    exact packInto_frame data b3 out3 o3 i3 hpi (by rw [hlen]; exact hi3)

/-- Witness for C8 at concrete buffers, offsets and indices. -/
theorem C8_pack_frame_witness :
    ([7, 7, 0, 0, 0, 0, 0, 0, 0, 0, 7, 7] : List Nat)[0]? =
      (List.replicate 12 7)[0]? ∧
    ([9, 5, 0, 0, 0, 9, 9, 9] : List Nat)[6]? =
      (List.replicate 8 9)[6]? ∧
    ([1, 0, 0, 0, 3, 3] : List Nat)[5]? = (List.replicate 6 3)[5]? :=
  C8_pack_frame CommandResponseMessage.init ⟨⟨5⟩⟩ ⟨1⟩
    (List.replicate 12 7) (List.replicate 8 9) (List.replicate 6 3)
    [7, 7, 0, 0, 0, 0, 0, 0, 0, 0, 7, 7] [9, 5, 0, 0, 0, 9, 9, 9]
    [1, 0, 0, 0, 3, 3] 6 4 4 2 1 0 0 6 5 (by rfl) (by rfl) (by rfl)
    (Or.inl (by norm_num)) (Or.inr (by norm_num [MessageRequest.SIZE]))
    (Or.inr (by norm_num [ResetRequest.SIZE]))

/-- Witness for C9 at concrete inputs (empty buffers, offset 0). -/
theorem C9_unpack_failure_atomic_witness :
    (CommandResponseMessage.init.unpack [] 0).1 = CommandResponseMessage.init ∧
      (MessageRequest.unpack ⟨⟨0⟩⟩ [] 0).1 = (⟨⟨0⟩⟩ : MessageRequest) ∧
      (ResetRequest.init.unpack [] 0).1 = ResetRequest.init :=
  C9_unpack_failure_atomic CommandResponseMessage.init ⟨⟨0⟩⟩ ResetRequest.init
    [] [] [] 0 0 0 rfl rfl rfl

end FusionEngine
